import Mathlib

/-!
Verification of the meta-pytorch.github.io site-data and sitemap generators.

The development shallowly embeds the two Python scripts:
  * `generate.py` — the Site-Data Generator (search index + project catalog),
    with its helpers `_MetaExtractor`, `_fetch_sitemap_urls`,
    `_extract_page_info`, `_is_crawlable`, `_should_skip_url`;
  * `scripts/generate_sitemap.py` — the Sitemap Generator
    (`get_project_sitemap_url`, `generate_sitemap_index`,
    `generate_unified_sitemap`, `validate_sitemaps`, `main`).

Network I/O, the standard-library HTML tokenizer and the XML parser are
abstracted as oracles (a `Net` record of pure functions); the repository's
own logic is translated function by function.  Machine strings are modelled
as Lean `String`/`List Char`, restricted to the ASCII case/whitespace
behaviour that the registry data exercises.
-/

/-! ## Python string primitives -/

/-- Python's `str.strip()` whitespace class (ASCII fragment of `\s`). -/
def pySpaceChar (c : Char) : Bool :=
  c = ' ' || c = '\t' || c = '\n' || c = '\x0d' || c = '\x0b' || c = '\x0c'

/-- `l.strip()` on a character list: drop whitespace at both ends. -/
def stripWs (l : List Char) : List Char :=
  ((l.dropWhile pySpaceChar).reverse.dropWhile pySpaceChar).reverse

/-- Python `s.strip()`. -/
def pyStrip (s : String) : String := ⟨stripWs s.data⟩

/-- `l.rstrip("/")` on a character list. -/
def rstripSlash (l : List Char) : List Char :=
  (l.reverse.dropWhile (· = '/')).reverse

/-- Python `s.rstrip("/")` — strips all trailing slash characters. -/
def pyRstripSlash (s : String) : String := ⟨rstripSlash s.data⟩

/-- ASCII lower-casing of a character list (Python `str.lower()` on the
ASCII data the generators handle). -/
def lowerL (l : List Char) : List Char := l.map Char.toLower

/-- Python `s.lower()`. -/
def pyLower (s : String) : String := ⟨lowerL s.data⟩

/-- `needle` is a (contiguous) prefix of `hay`. -/
def isPrefixCheck : List Char → List Char → Bool
  | [], _ => true
  | _ :: _, [] => false
  | a :: as, b :: bs => a = b && isPrefixCheck as bs

/-- `needle` occurs as a contiguous substring of `hay`
(Python `needle in hay`; the empty needle always matches). -/
def substrCheck (needle : List Char) : List Char → Bool
  | [] => isPrefixCheck needle []
  | b :: bs => isPrefixCheck needle (b :: bs) || substrCheck needle bs

/-- Python `needle in hay` for strings. -/
def pyContains (hay needle : String) : Bool := substrCheck needle.data hay.data

/-! ## `_MetaExtractor` (generate.py lines 38-61)

`html.parser.HTMLParser` is the Python standard library's streaming
tokenizer; we model its output as a list of events (start tags with their
attribute lists, text data, end tags).  Attribute values are `Option
String` because the tokenizer reports value-less attributes as `None`. -/

inductive HtmlEvent where
  | startTag (tag : String) (attrs : List (String × Option String))
  | dataText (s : String)
  | endTag (tag : String)
deriving DecidableEq, Repr

/-- `dict(attrs)` followed by a key lookup: the last binding of a
duplicated key wins; `none` when the key is absent. -/
def dictLast (attrs : List (String × Option String)) (k : String) :
    Option (Option String) :=
  (attrs.reverse.find? (fun a => a.1 = k)).map (·.2)

/-- `d.get(k, "")`: absent key yields `""`; a present value-less attribute
yields Python `None`, modelled as the inner `none`. -/
def dictGetDefault (attrs : List (String × Option String)) (k : String) :
    Option String :=
  (dictLast attrs k).getD (some "")

/-- Mutable state of `_MetaExtractor`: `title` and `_in_title` accumulate
title text; `description` is `Option String` because the Python attribute
can be assigned `None` (value-less `content` attribute). -/
structure MetaState where
  title : String
  description : Option String
  inTitle : Bool
deriving DecidableEq, Repr

def initMetaState : MetaState := { title := "", description := some "", inTitle := false }

/-- `handle_starttag`.  The `.error` case models the `AttributeError`
raised by `d.get("name", "").lower()` when the `name` attribute is present
but value-less (`None.lower()`); the exception escapes `feed` and is
swallowed by the caller, aborting the rest of the parse. -/
def handleStarttag (st : MetaState) (tag : String)
    (attrs : List (String × Option String)) : Except Unit MetaState :=
  let st1 := if tag = "title" then { st with inTitle := true } else st
  if tag = "meta" then
    match dictGetDefault attrs "name" with
    | none => .error ()
    | some n =>
      if pyLower n = "description" then
        .ok { st1 with description := dictGetDefault attrs "content" }
      else .ok st1
  else .ok st1

/-- One tokenizer event dispatched to the `_MetaExtractor` handlers. -/
def stepEvent (st : MetaState) : HtmlEvent → Except Unit MetaState
  | .startTag t a => handleStarttag st t a
  | .dataText s => .ok (if st.inTitle then { st with title := st.title ++ s } else st)
  | .endTag t => .ok (if t = "title" then { st with inTitle := false } else st)

/-- `parser.feed(body)` under the caller's `try/except Exception: pass`:
events are processed in order; a raising handler stops the parse and the
state accumulated so far is kept. -/
def runEvents : MetaState → List HtmlEvent → MetaState
  | st, [] => st
  | st, e :: es =>
    match stepEvent st e with
    | .ok st2 => runEvents st2 es
    | .error _ => st

/-! ## Title cleanup (generate.py lines 145-159) -/

/-- Leftmost split of `l` on the separator `sep` (Python
`l.split(sep, 1)` when `sep in l`): `some (before, after)` at the first
occurrence, `none` when `sep` does not occur. -/
def splitFirstSep (sep : List Char) : List Char → Option (List Char × List Char)
  | [] => none
  | c :: cs =>
    if isPrefixCheck sep (c :: cs) then some ([], (c :: cs).drop sep.length)
    else
      match splitFirstSep sep cs with
      | some (a, b) => some (c :: a, b)
      | none => none

/-- The Sphinx title separator `" — "` (space, em-dash, space). -/
def titleSep : List Char := [' ', '—', ' ']

def isPyDigit (c : Char) : Bool := '0' ≤ c && c ≤ '9'

/-- The `v?` part of the version regex: consume a leading `v` only when a
digit follows (the only backtracking the pattern can perform). -/
def verAfterV (r1 : List Char) : List Char :=
  match r1 with
  | 'v' :: d :: rest => if isPyDigit d then d :: rest else r1
  | _ => r1

/-- The `\d[\d.]*\s*` part of the version regex: a mandatory digit, then
greedy digits-and-dots, then greedy whitespace; returns the remainder. -/
def verDigits (r2 : List Char) : Option (List Char) :=
  match r2 with
  | d :: rest =>
    if isPyDigit d then
      some ((rest.dropWhile (fun x => isPyDigit x || x = '.')).dropWhile pySpaceChar)
    else none
  | [] => none

/-- Attempt to match the regex `\s+v?\d[\d.]*\s*` at the head of the
input; on success return the remainder after the (greedy) match.  The
whitespace run must be non-empty. -/
def matchVerAt (l : List Char) : Option (List Char) :=
  match l with
  | [] => none
  | c :: cs =>
    if pySpaceChar c then verDigits (verAfterV (cs.dropWhile pySpaceChar))
    else none

/-- `re.sub(r"\s+v?\d[\d.]*\s*", " ", l)`: left-to-right scan replacing
each non-overlapping match by a single space.  Fuel is the input length;
every match consumes at least its leading whitespace character, so the
fuel never runs out (`pySubVersionGo_fuel` below). -/
def pySubVersionGo : Nat → List Char → List Char
  | 0, l => l
  | _ + 1, [] => []
  | n + 1, c :: cs =>
    match matchVerAt (c :: cs) with
    | some rest => ' ' :: pySubVersionGo n rest
    | none => c :: pySubVersionGo n cs

def pySubVersion (l : List Char) : List Char := pySubVersionGo l.length l

/-- Does `\s*(documentation|docs)\s*$` match the whole remainder `r`?
Equivalently: `r` is whitespace, then the word (case-insensitively),
then whitespace to the end. -/
def docsTailMatch (r : List Char) : Bool :=
  let r1 := r.dropWhile pySpaceChar
  (isPrefixCheck "documentation".data (lowerL r1)
      && (r1.drop 13).all pySpaceChar)
  || (isPrefixCheck "docs".data (lowerL r1)
      && (r1.drop 4).all pySpaceChar)

/-- `re.sub(r"\s*(documentation|docs)\s*$", "", l, flags=re.IGNORECASE)`:
delete from the leftmost position whose remainder matches the anchored
pattern; unchanged when no position matches. -/
def stripDocsSuffix : List Char → List Char
  | [] => []
  | c :: cs => if docsTailMatch (c :: cs) then [] else c :: stripDocsSuffix cs

/-- The `" — "` title-cleanup block of `_extract_page_info`
(generate.py lines 147-159); identity on titles without the separator. -/
def cleanupTitle (title : String) : String :=
  match splitFirstSep titleSep title.data with
  | none => title
  | some (p, s) =>
    let page := stripWs p
    let suffix := stripWs s
    let suffix := pySubVersion suffix
    let suffix := stripDocsSuffix suffix
    let suffix := stripWs suffix
    if suffix ≠ [] ∧ lowerL suffix ≠ lowerL page then
      ⟨page ++ " - ".data ++ suffix⟩
    else ⟨page⟩

example : cleanupTitle "API Reference — Torchy 2.1 documentation" = "API Reference - Torchy" := by decide

example : cleanupTitle "Home — Torchy" = "Home - Torchy" := by decide

example : cleanupTitle "Torchy — Torchy 0.1 docs" = "Torchy" := by decide

/-! ## XML trees (xml.etree.ElementTree fragment)

`net.parseXml` below stands for `ET.fromstring` applied after the single
namespace-stripping `re.sub` of generate.py (so tags carry their local
names); `ET.ParseError` is modelled as `none`. -/

inductive Xml where
  | elem (tag : String) (text : Option String) (children : List Xml)

def Xml.tag : Xml → String
  | .elem t _ _ => t

def Xml.text : Xml → Option String
  | .elem _ tx _ => tx

def Xml.children : Xml → List Xml
  | .elem _ _ cs => cs

mutual
/-- `element.iter()` without a tag filter: the element itself followed by
all descendants, in document order. -/
def Xml.iterAll : Xml → List Xml
  | .elem t tx cs => .elem t tx cs :: Xml.iterAllList cs

def Xml.iterAllList : List Xml → List Xml
  | [] => []
  | x :: xs => Xml.iterAll x ++ Xml.iterAllList xs
end

/-- `element.iter(tag)`. -/
def Xml.iterTag (x : Xml) (t : String) : List Xml :=
  x.iterAll.filter (fun e => e.tag = t)

/-- `element.findtext(tag)`: the text of the first direct child with the
given tag (`""` when that child has no text), `None` when absent. -/
def Xml.findtext (x : Xml) (t : String) : Option String :=
  (x.children.find? (fun c => c.tag = t)).map (fun c => c.text.getD "")

/-- Python truthiness filter on an optional string (`if loc:`). -/
def truthyStr : Option String → Option String
  | none => none
  | some s => if s = "" then none else some s

/-! ## Network oracle -/

/-- The ambient effectful environment of generate.py, as pure oracles:

  * `fetch` — `_fetch` (generate.py lines 64-71): status and decoded body,
    `(0, "")` for any error;
  * `parseXml` — namespace-stripped `ET.fromstring`, `none` on
    `ParseError`;
  * `tokenize` — the `html.parser` tokenizer event stream for a body. -/
structure Net where
  fetch : String → Nat × String
  parseXml : String → Option Xml
  tokenize : String → List HtmlEvent

/-! ## `_fetch_sitemap_urls` (generate.py lines 74-127) -/

def sitemap_paths : List String :=
  ["/sitemap.xml", "/stable/sitemap.xml", "/main/sitemap.xml",
   "/latest/sitemap.xml", "/en/stable/sitemap.xml", "/en/latest/sitemap.xml",
   "/sitemap_index.xml"]

/-- URL collection from one successfully parsed candidate document:
first every `url/loc` of each fetched-and-parsed sub-sitemap referenced by
a `sitemap/loc` entry (sitemap-index handling, lines 103-116), then the
document's own `url/loc` values (flat-sitemap handling, lines 119-122). -/
def collectRoot (net : Net) (root : Xml) : List String :=
  ((root.iterTag "sitemap").flatMap (fun el =>
    match truthyStr (el.findtext "loc") with
    | none => []
    | some loc =>
      let sb := net.fetch loc
      if sb.1 = 200 && sb.2 ≠ "" then
        match net.parseXml sb.2 with
        | none => []
        | some sub => (sub.iterTag "url").filterMap (fun u => truthyStr (u.findtext "loc"))
      else []))
  ++ (root.iterTag "url").filterMap (fun u => truthyStr (u.findtext "loc"))

/-- The candidate-path loop of `_fetch_sitemap_urls`, with the cumulative
`urls` accumulator; `continue` on a failed fetch, empty body or parse
failure, `break` (returning the accumulator) once it is non-empty. -/
def fetchSitemapGo (net : Net) (base : String) (urls : List String) :
    List String → List String
  | [] => urls
  | p :: rest =>
    let sb := net.fetch (base ++ p)
    if sb.1 ≠ 200 || pyStrip sb.2 = "" then fetchSitemapGo net base urls rest
    else
      match net.parseXml sb.2 with
      | none => fetchSitemapGo net base urls rest
      | some root =>
        let urls2 := urls ++ collectRoot net root
        if urls2 = [] then fetchSitemapGo net base urls2 rest else urls2

/-- `_fetch_sitemap_urls(docs_url)`. -/
def fetch_sitemap_urls (net : Net) (docs_url : String) : List String :=
  fetchSitemapGo net (pyRstripSlash docs_url) [] sitemap_paths

/-! ## `_extract_page_info` (generate.py lines 130-161) -/

/-- `_extract_page_info(url)`.  `.error` models the uncaught
`AttributeError` from `parser.description.strip()` when the description
attribute holds Python `None` (a value-less `content` attribute on the
matching meta tag); it would crash the whole generator run. -/
def extract_page_info (net : Net) (url : String) :
    Except Unit (Option String × Option String) :=
  let sb := net.fetch url
  if sb.1 ≠ 200 then .ok (none, none)
  else
    let ms := runEvents initMetaState (net.tokenize sb.2)
    match ms.description with
    | none => .error ()
    | some d =>
      let title := cleanupTitle (pyStrip ms.title)
      let desc := pyStrip d
      .ok (if title = "" then none else some title,
           if desc = "" then none else some desc)

/-! ## Crawl filters (generate.py lines 164-190) -/

/-- `_is_crawlable(url)`. -/
def is_crawlable (url : String) : Bool :=
  !(["github.com", "huggingface.co", "gitlab.com"].any (fun host => pyContains url host))

def skipPatterns : List String :=
  ["/_sources/", "/_source/", "/_static/", "/_modules/", "/_downloads/",
   "/_images/", "/genindex", "/py-modindex", "/search.html", "/404.html",
   "/sg_execution_times", "/objects.inv"]

/-- `_should_skip_url(url)`. -/
def should_skip_url (url : String) : Bool :=
  skipPatterns.any (fun pat => pyContains url pat)

/-! ## The registry and the generate loop (generate.py lines 196-304) -/

/-- A manual page record from a registry entry's `pages` list.
`title` and `url` are required fields (a registry missing them aborts the
run and is outside this model); `content` is `none` when the key is
absent. -/
structure ManualPage where
  title : String
  url : String
  content : Option String
deriving DecidableEq, Repr

/-- One record of `projects.yaml`.  `id`, `title`, `repo` are required;
the remaining fields model `proj.get(...)` lookups, with
`sitemap : Option (Option String)` distinguishing a missing key (`none`)
from a key explicitly set to the YAML null absent-marker (`some none`). -/
structure Project where
  id : String
  title : String
  repo : String
  docs : Option String
  sitemap : Option (Option String)
  keywords : Option String
  category : Option String
  description : Option String
  pages : Option (List ManualPage)
deriving DecidableEq, Repr

/-- A Search Page Entry of the emitted search index. -/
structure PageEntry where
  title : String
  url : String
  content : String
deriving DecidableEq, Repr

/-- A Search Index Entry (one per project). -/
structure SearchEntry where
  id : String
  title : String
  category : String
  description : String
  keywords : String
  url : String
  pages : List PageEntry
deriving DecidableEq, Repr

/-- A Project Card Entry of projects.json. -/
structure CardEntry where
  id : String
  title : String
  repo : String
  category : String
  description : String
  docs : String
  github : String
deriving DecidableEq, Repr

def GITHUB_ORG : String := "meta-pytorch"

/-- `proj.get("docs", f"https://meta-pytorch.org/{repo}/")`. -/
def docsOf (p : Project) : String :=
  p.docs.getD ("https://meta-pytorch.org/" ++ p.repo ++ "/")

/-- The Project Card Entry emitted for `p` (generate.py lines 213-223). -/
def cardOf (p : Project) : CardEntry :=
  { id := p.id, title := p.title, repo := p.repo,
    category := p.category.getD "", description := p.description.getD "",
    docs := docsOf p,
    github := "https://github.com/" ++ GITHUB_ORG ++ "/" ++ p.repo }

/-- The Search Page Entry seeded from one manual page record
(generate.py lines 229-235). -/
def manualEntry (pg : ManualPage) : PageEntry :=
  { title := pg.title, url := pg.url, content := pg.content.getD "" }

def manualEntriesOf (p : Project) : List PageEntry :=
  (p.pages.getD []).map manualEntry

/-- The `manual_urls` set of normalized manual URLs (generate.py line 236);
only membership is ever used, so a list models the Python set. -/
def manualUrlsOf (p : Project) : List String :=
  (p.pages.getD []).map (fun pg => pyRstripSlash pg.url)

/-- The per-page loop over sitemap-discovered URLs
(generate.py lines 248-269): manual-priority skip, build-artifact skip,
metadata extraction (dropping pages without a recoverable title), and the
project-title suffixing for search relevance. -/
def crawlLoop (net : Net) (projTitle : String) (manualUrls : List String) :
    List String → Except Unit (List PageEntry)
  | [] => .ok []
  | u :: us =>
    if pyRstripSlash u ∈ manualUrls then crawlLoop net projTitle manualUrls us
    else if should_skip_url u then crawlLoop net projTitle manualUrls us
    else
      match extract_page_info net u with
      | .error e => .error e
      | .ok (none, _) => crawlLoop net projTitle manualUrls us
      | .ok (some t, desc) =>
        let t2 := if pyContains (pyLower t) (pyLower projTitle) then t
                  else t ++ " - " ++ projTitle
        match crawlLoop net projTitle manualUrls us with
        | .error e => .error e
        | .ok rest => .ok ({ title := t2, url := u, content := desc.getD "" } :: rest)

/-- The dedup-by-normalized-URL pass (generate.py lines 272-279): `seen`
is the Python set of already-kept normalized URLs (membership only). -/
def dedupGo (seen : List String) : List PageEntry → List PageEntry
  | [] => []
  | pg :: rest =>
    let key := pyRstripSlash pg.url
    if key ∈ seen then dedupGo seen rest
    else pg :: dedupGo (key :: seen) rest

/-- The per-project `pages` computation (generate.py lines 226-279):
manual seeding always; crawl plus dedup only when online and the docs
host is crawlable. -/
def projectPages (net : Net) (offline : Bool) (p : Project) :
    Except Unit (List PageEntry) :=
  let manual := manualEntriesOf p
  if !offline && is_crawlable (docsOf p) then
    match crawlLoop net p.title (manualUrlsOf p) (fetch_sitemap_urls net (docsOf p)) with
    | .error e => .error e
    | .ok crawled => .ok (dedupGo [] (manual ++ crawled))
  else .ok manual

/-- The Search Index Entry for one project (generate.py lines 282-290). -/
def searchEntryOf (p : Project) (pages : List PageEntry) : SearchEntry :=
  { id := p.id, title := p.title, category := p.category.getD "",
    description := p.description.getD "", keywords := p.keywords.getD "",
    url := docsOf p, pages := pages }

/-- `generate(offline)` (generate.py lines 196-304): the search-index and
project-catalog lists as assembled over the registry, `.error` when a
page extraction crashes the run. -/
def generate (net : Net) (offline : Bool) :
    List Project → Except Unit (List SearchEntry × List CardEntry)
  | [] => .ok ([], [])
  | p :: ps =>
    match projectPages net offline p with
    | .error e => .error e
    | .ok pages =>
      match generate net offline ps with
      | .error e => .error e
      | .ok (si, cards) => .ok (searchEntryOf p pages :: si, cardOf p :: cards)

/-! ## Sitemap Generator (scripts/generate_sitemap.py)

`fetch_sitemap(url)` (lines 58-66) is modelled by an oracle
`fp : String → Option Xml` — the parsed tree on success, `none` for any
URL/HTTP error or `ET.ParseError`.  `datetime.now().strftime("%Y-%m-%d")`
is the `today` parameter.  Generated XML documents are modelled as their
root's child-element lists (`prettify_xml` is a fixed injective rendering
of that tree and adds nothing the claims depend on). -/

def BASE_URL : String := "https://meta-pytorch.org"
def SITEMAP_OUTPUT_PATH : String := "sitemap.xml"
def UNIFIED_SITEMAP_PATH : String := "sitemap-unified.xml"
def MAIN_SITEMAP_PATH : String := "sitemap-main.xml"

/-- `get_project_sitemap_url(project)` (lines 69-78). -/
def get_project_sitemap_url (p : Project) : Option String :=
  match p.sitemap with
  | some v => v
  | none => some (pyRstripSlash (p.docs.getD "") ++ "/sitemap.xml")

def locLastmod (u today : String) : List Xml :=
  [.elem "loc" (some u) [], .elem "lastmod" (some today) []]

/-- The `sitemapindex` entry contributed by one project (lines 93-101);
`[]` models the `continue` for projects without a sitemap URL. -/
def indexContrib (today : String) (p : Project) : List Xml :=
  match get_project_sitemap_url p with
  | none => []
  | some u => [.elem "sitemap" none (locLastmod u today)]

/-- `generate_sitemap_index(projects, include_main)` (lines 81-103), as
the list of `sitemap` children of the `sitemapindex` root. -/
def generate_sitemap_index (today : String) (include_main : Bool)
    (projects : List Project) : List Xml :=
  (if include_main then
    [Xml.elem "sitemap" none (locLastmod (BASE_URL ++ "/" ++ MAIN_SITEMAP_PATH) today)]
  else [])
  ++ projects.flatMap (indexContrib today)

/-- The portal-root `url` entry of the unified sitemap (lines 114-123). -/
def unifiedMainEntry (today : String) : Xml :=
  .elem "url" none
    [.elem "loc" (some (BASE_URL ++ "/")) [], .elem "lastmod" (some today) [],
     .elem "priority" (some "1.0") [], .elem "changefreq" (some "weekly") []]

/-- The docs-root fallback `url` entry at priority 0.8
(lines 130-137 and 144-151). -/
def docsRootEntry (today : String) (p : Project) : Xml :=
  .elem "url" none
    [.elem "loc" (some (pyRstripSlash (p.docs.getD "") ++ "/")) [],
     .elem "lastmod" (some today) [],
     .elem "priority" (some "0.8") []]

/-- `findall(".//{ns}url")`: every strict descendant tagged `url`,
in document order. -/
def Xml.findallDescUrl (x : Xml) : List Xml :=
  (Xml.iterAllList x.children).filter (fun e => e.tag = "url")

/-- Cloning one fetched `url` entry into the unified sitemap
(lines 156-167): each direct child is copied by tag and text only, and a
`lastmod` child is synthesized when the source entry lacks one. -/
def cloneUrlEntry (today : String) (e : Xml) : Xml :=
  let kids := e.children.map (fun c => Xml.elem c.tag c.text [])
  let kids := if e.children.any (fun c => c.tag = "lastmod") then kids
              else kids ++ [Xml.elem "lastmod" (some today) []]
  .elem "url" none kids

/-- The `url` entries contributed to the unified sitemap by one project
(lines 126-167). -/
def unifiedContrib (fp : String → Option Xml) (today : String) (p : Project) :
    List Xml :=
  match get_project_sitemap_url p with
  | none => [docsRootEntry today p]
  | some u =>
    match fp u with
    | none => [docsRootEntry today p]
    | some root => root.findallDescUrl.map (cloneUrlEntry today)

/-- `generate_unified_sitemap(projects)` (lines 106-169), as the list of
`url` children of the `urlset` root. -/
def generate_unified_sitemap (fp : String → Option Xml) (today : String)
    (projects : List Project) : List Xml :=
  unifiedMainEntry today :: projects.flatMap (unifiedContrib fp today)

/-- `validate_sitemaps(projects)` (lines 172-189): `all_valid` folded
over the registry; projects without a sitemap URL are skipped. -/
def validate_sitemaps (fp : String → Option Xml) (projects : List Project) : Bool :=
  projects.foldl
    (fun acc p =>
      match get_project_sitemap_url p with
      | none => acc
      | some u => if (fp u).isSome then acc else false)
    true

/-- `main()` after argument parsing and registry loading (lines 225-252):
the process exit code and the list of written sitemap files (name and
root-children content).  In `--validate` mode generation is skipped and
the exit code reflects validation; otherwise the index is always written
and the unified sitemap only under `--unified`, with exit code 0. -/
def mainRun (fp : String → Option Xml) (validateFlag unifiedFlag : Bool)
    (projects : List Project) (today : String) : Nat × List (String × List Xml) :=
  if validateFlag then
    (if validate_sitemaps fp projects then 0 else 1, [])
  else
    (0,
     [(SITEMAP_OUTPUT_PATH, generate_sitemap_index today true projects)]
     ++ (if unifiedFlag then
          [(UNIFIED_SITEMAP_PATH, generate_unified_sitemap fp today projects)]
        else []))

/-! ## JSON serialization (`json.dump(..., indent=2)`)

Python's default encoder with `ensure_ascii=True`: `"` and `\` escaped,
the usual control-character shorthands, every other character outside
`0x20..0x7e` as `\uXXXX` (surrogate pairs above `0xFFFF`); 2-space
indentation, `", "`-free item separators with one key-value pair or list
item per line. -/

def hexDigit (n : Nat) : Char :=
  if n < 10 then Char.ofNat (48 + n) else Char.ofNat (87 + n)

def uEscape (n : Nat) : List Char :=
  ['\\', 'u', hexDigit (n / 4096 % 16), hexDigit (n / 256 % 16),
   hexDigit (n / 16 % 16), hexDigit (n % 16)]

def escChar (c : Char) : List Char :=
  if c = '"' then ['\\', '"']
  else if c = '\\' then ['\\', '\\']
  else if c = '\n' then ['\\', 'n']
  else if c = '\x0d' then ['\\', 'r']
  else if c = '\t' then ['\\', 't']
  else if c = '\x08' then ['\\', 'b']
  else if c = '\x0c' then ['\\', 'f']
  else if c.toNat < 32 || c.toNat > 126 then
    if c.toNat > 65535 then
      uEscape (55296 + (c.toNat - 65536) / 1024) ++ uEscape (56320 + (c.toNat - 65536) % 1024)
    else uEscape c.toNat
  else [c]

def jsonStr (s : String) : String := "\"" ++ ⟨s.data.flatMap escChar⟩ ++ "\""

def indentN (n : Nat) : String := ⟨List.replicate n ' '⟩

def joinSep (sep : String) : List String → String
  | [] => ""
  | [x] => x
  | x :: y :: rest => x ++ sep ++ joinSep sep (y :: rest)

/-- A JSON object at base indent `ind` from already-serialized key/value
pairs, in insertion order. -/
def jsonObj (ind : Nat) (fields : List (String × String)) : String :=
  if fields = [] then "\x7b\x7d"
  else
    "\x7b\n"
    ++ joinSep (",\n")
        (fields.map (fun f => indentN (ind + 2) ++ jsonStr f.1 ++ ": " ++ f.2))
    ++ "\n" ++ indentN ind ++ "\x7d"

def jsonList (ind : Nat) (items : List String) : String :=
  if items = [] then "[]"
  else
    "[\n" ++ joinSep (",\n") (items.map (fun it => indentN (ind + 2) ++ it))
    ++ "\n" ++ indentN ind ++ "]"

def pageEntryJson (ind : Nat) (pg : PageEntry) : String :=
  jsonObj ind
    [("title", jsonStr pg.title), ("url", jsonStr pg.url),
     ("content", jsonStr pg.content)]

def searchEntryJson (ind : Nat) (e : SearchEntry) : String :=
  jsonObj ind
    [("id", jsonStr e.id), ("title", jsonStr e.title),
     ("category", jsonStr e.category), ("description", jsonStr e.description),
     ("keywords", jsonStr e.keywords), ("url", jsonStr e.url),
     ("pages", jsonList (ind + 2) (e.pages.map (pageEntryJson (ind + 4))))]

def cardEntryJson (ind : Nat) (e : CardEntry) : String :=
  jsonObj ind
    [("id", jsonStr e.id), ("title", jsonStr e.title), ("repo", jsonStr e.repo),
     ("category", jsonStr e.category), ("description", jsonStr e.description),
     ("docs", jsonStr e.docs), ("github", jsonStr e.github)]

/-- The bytes of search-index.json. -/
def serializeSearchIndex (si : List SearchEntry) : String :=
  jsonList 0 (si.map (searchEntryJson 2))

/-- The bytes of projects.json. -/
def serializeCards (cards : List CardEntry) : String :=
  jsonList 0 (cards.map (cardEntryJson 2))

/-! ## Auxiliary lemmas -/


theorem dropWhile_length_le (p : Char → Bool) (l : List Char) :
    (l.dropWhile p).length ≤ l.length :=
  (List.dropWhile_suffix p).length_le

theorem verAfterV_length_le (r1 : List Char) : (verAfterV r1).length ≤ r1.length := by
  unfold verAfterV
  split
  · split <;> simp
  · exact le_refl _

theorem verDigits_length_lt {r2 r : List Char} (h : verDigits r2 = some r) :
    r.length < r2.length := by
  cases r2 with
  | nil => simp [verDigits] at h
  | cons d rest =>
    by_cases hd : isPyDigit d
    · simp only [verDigits, hd, if_true, Option.some.injEq] at h
      have : r.length ≤ rest.length := by
        rw [← h]
        exact le_trans (dropWhile_length_le _ _) (dropWhile_length_le _ rest)
      simp only [List.length_cons]
      omega
    · simp [verDigits, hd] at h

/-- A successful match of the version regex consumes at least its leading
whitespace character, so the length-bounded fuel of `pySubVersionGo`
never runs out. -/
theorem matchVerAt_length_le {c : Char} {cs r : List Char}
    (h : matchVerAt (c :: cs) = some r) : r.length ≤ cs.length := by
  by_cases hsp : pySpaceChar c
  · simp only [matchVerAt, hsp, if_true] at h
    have := verDigits_length_lt h
    have h2 := verAfterV_length_le (cs.dropWhile pySpaceChar)
    have h3 := dropWhile_length_le pySpaceChar cs
    omega
  · simp [matchVerAt, hsp] at h

/-- Any fuel at least the input's length computes the same substitution,
so `pySubVersion`'s `l.length` fuel is canonical. -/
theorem pySubVersionGo_fuel :
    ∀ (n m : Nat) (l : List Char), l.length ≤ n → l.length ≤ m →
      pySubVersionGo n l = pySubVersionGo m l := by
  intro n
  induction n with
  | zero =>
    intro m l hn _
    have : l = [] := List.length_eq_zero.mp (Nat.le_zero.mp hn)
    subst this
    cases m <;> simp [pySubVersionGo]
  | succ n ih =>
    intro m l hn hm
    cases l with
    | nil => cases m <;> simp [pySubVersionGo]
    | cons c cs =>
      cases m with
      | zero => simp at hm
      | succ m =>
        simp only [List.length_cons] at hn hm
        cases hmv : matchVerAt (c :: cs) with
        | none =>
          simp only [pySubVersionGo, hmv]
          rw [ih m cs (by omega) (by omega)]
        | some rest =>
          have := matchVerAt_length_le hmv
          simp only [pySubVersionGo, hmv]
          rw [ih m rest (by omega) (by omega)]

/-- Every page kept by the dedup pass comes from the input list. -/
theorem dedupGo_subset :
    ∀ (l : List PageEntry) (seen : List String) (x : PageEntry),
      x ∈ dedupGo seen l → x ∈ l := by
  intro l
  induction l with
  | nil => intro seen x hx; simp [dedupGo] at hx
  | cons pg rest ih =>
    intro seen x hx
    by_cases h : pyRstripSlash pg.url ∈ seen
    · simp only [dedupGo, if_pos h] at hx
      exact List.mem_cons_of_mem _ (ih seen x hx)
    · simp only [dedupGo, if_neg h, List.mem_cons] at hx
      rcases hx with rfl | hx
      · exact List.mem_cons_self _ _
      · exact List.mem_cons_of_mem _ (ih _ x hx)

/-- No page kept by the dedup pass has a normalized URL already seen. -/
theorem dedupGo_avoid :
    ∀ (l : List PageEntry) (seen : List String) (x : PageEntry),
      x ∈ dedupGo seen l → pyRstripSlash x.url ∉ seen := by
  intro l
  induction l with
  | nil => intro seen x hx; simp [dedupGo] at hx
  | cons pg rest ih =>
    intro seen x hx
    by_cases h : pyRstripSlash pg.url ∈ seen
    · simp only [dedupGo, if_pos h] at hx
      exact ih seen x hx
    · simp only [dedupGo, if_neg h, List.mem_cons] at hx
      rcases hx with rfl | hx
      · exact h
      · intro hmem
        exact (ih _ x hx) (List.mem_cons_of_mem _ hmem)

/-- The dedup pass leaves no two pages with the same normalized URL. -/
theorem dedupGo_pairwise :
    ∀ (l : List PageEntry) (seen : List String),
      (dedupGo seen l).Pairwise
        (fun a b => pyRstripSlash a.url ≠ pyRstripSlash b.url) := by
  intro l
  induction l with
  | nil => intro seen; simp [dedupGo]
  | cons pg rest ih =>
    intro seen
    by_cases h : pyRstripSlash pg.url ∈ seen
    · simp only [dedupGo, if_pos h]
      exact ih seen
    · simp only [dedupGo, if_neg h]
      refine List.Pairwise.cons ?_ (ih _)
      intro y hy heq
      exact (dedupGo_avoid _ _ _ hy) (heq ▸ List.mem_cons_self _ _)

/-- The dedup pass keeps a page that is the unique carrier of its
normalized URL in the input (first-occurrence semantics specialized to
the unique-occurrence case used below). -/
theorem dedupGo_keep :
    ∀ (l : List PageEntry) (seen : List String) (x : PageEntry),
      x ∈ l → pyRstripSlash x.url ∉ seen →
      (∀ y ∈ l, pyRstripSlash y.url = pyRstripSlash x.url → y = x) →
      x ∈ dedupGo seen l := by
  intro l
  induction l with
  | nil => intro seen x hx; simp at hx
  | cons pg rest ih =>
    intro seen x hx hseen huniq
    by_cases hnorm : pyRstripSlash pg.url = pyRstripSlash x.url
    · have hpg : pg = x := huniq pg (List.mem_cons_self _ _) hnorm
      subst hpg
      simp only [dedupGo, if_neg hseen]
      exact List.mem_cons_self _ _
    · have hx' : x ∈ rest := by
        rcases List.mem_cons.mp hx with rfl | hx'
        · exact absurd rfl hnorm
        · exact hx'
      by_cases h : pyRstripSlash pg.url ∈ seen
      · simp only [dedupGo, if_pos h]
        exact ih seen x hx' hseen (fun y hy => huniq y (List.mem_cons_of_mem _ hy))
      · simp only [dedupGo, if_neg h]
        refine List.mem_cons_of_mem _ (ih _ x hx' ?_ ?_)
        · intro hmem
          rcases List.mem_cons.mp hmem with heq | hmem'
          · exact hnorm heq.symm
          · exact hseen hmem'
        · exact fun y hy => huniq y (List.mem_cons_of_mem _ hy)

/-- Inversion of `extract_page_info`: a recovered title is non-empty. -/
theorem extract_ok_title_ne {net : Net} {u : String} {t : String}
    {d : Option String}
    (h : extract_page_info net u = .ok (some t, d)) : t ≠ "" := by
  unfold extract_page_info at h
  by_cases hst : (net.fetch u).1 ≠ 200
  · rw [if_pos hst] at h
    simp at h
  · rw [if_neg hst] at h
    dsimp only [] at h
    cases hdesc : (runEvents initMetaState (net.tokenize (net.fetch u).2)).description with
    | none => rw [hdesc] at h; simp at h
    | some d0 =>
      rw [hdesc] at h
      simp only [Except.ok.injEq, Prod.mk.injEq] at h
      by_cases ht : cleanupTitle (pyStrip (runEvents initMetaState (net.tokenize (net.fetch u).2)).title) = ""
      · rw [if_pos ht] at h
        exact absurd h.1 (by simp)
      · rw [if_neg ht] at h
        have h1 := h.1
        simp only [Option.some.injEq] at h1
        rw [← h1]
        exact ht

/-- A non-empty string stays non-empty under appending. -/
theorem append_ne_empty_left {a : String} (b : String) (ha : a ≠ "") :
    a ++ b ≠ "" := by
  intro h
  have hd := congrArg String.data h
  rw [String.data_append] at hd
  have h0 : String.data "" = [] := rfl
  rw [h0] at hd
  have h1 : a.data = [] := (List.append_eq_nil.mp hd).1
  exact ha (String.ext (h1.trans h0.symm))

/-- Every page produced by the crawl loop survived the manual-priority
check and the build-artifact skip check, and carries a non-empty title. -/
theorem crawlLoop_mem {net : Net} {projTitle : String}
    {manualUrls : List String} :
    ∀ {us : List String} {res : List PageEntry},
      crawlLoop net projTitle manualUrls us = .ok res →
      ∀ e ∈ res,
        pyRstripSlash e.url ∉ manualUrls ∧ should_skip_url e.url = false ∧
        e.title ≠ "" := by
  intro us
  induction us with
  | nil =>
    intro res h e he
    simp only [crawlLoop, Except.ok.injEq] at h
    rw [← h] at he
    simp at he
  | cons u us ih =>
    intro res h e he
    by_cases hman : pyRstripSlash u ∈ manualUrls
    · rw [crawlLoop, if_pos hman] at h
      exact ih h e he
    · rw [crawlLoop, if_neg hman] at h
      by_cases hskip : should_skip_url u = true
      · rw [if_pos hskip] at h
        exact ih h e he
      · rw [if_neg hskip] at h
        cases hext : extract_page_info net u with
        | error e0 => simp only [hext] at h; exact absurd h (by simp)
        | ok pr =>
          obtain ⟨topt, desc⟩ := pr
          cases topt with
          | none => simp only [hext] at h; exact ih h e he
          | some t0 =>
            simp only [hext] at h
            cases hcl : crawlLoop net projTitle manualUrls us with
            | error e0 => simp only [hcl] at h; exact absurd h (by simp)
            | ok rest =>
              simp only [hcl, Except.ok.injEq] at h
              rw [← h] at he
              rcases List.mem_cons.mp he with rfl | he2
              · refine ⟨hman, by simpa using hskip, ?_⟩
                have ht0 : t0 ≠ "" := extract_ok_title_ne hext
                dsimp only
                by_cases hcont : pyContains (pyLower t0) (pyLower projTitle) = true
                · rw [if_pos hcont]; exact ht0
                · rw [if_neg hcont]
                  exact append_ne_empty_left _ (append_ne_empty_left _ ht0)
              · exact ih hcl e he2

/-- In offline mode the page list is exactly the manual entries. -/
theorem projectPages_offline (net : Net) (p : Project) :
    projectPages net true p = .ok (manualEntriesOf p) := by
  simp [projectPages]

/-- For a non-crawlable docs host the page list is exactly the manual
entries, crawl and dedup skipped. -/
theorem projectPages_noncrawl (net : Net) (p : Project)
    (hc : is_crawlable (docsOf p) = false) :
    projectPages net false p = .ok (manualEntriesOf p) := by
  simp [projectPages, hc]

/-- Inversion of the online-crawlable branch of `projectPages`. -/
theorem projectPages_online {net : Net} {p : Project} {pages : List PageEntry}
    (hc : is_crawlable (docsOf p) = true)
    (h : projectPages net false p = .ok pages) :
    ∃ crawled,
      crawlLoop net p.title (manualUrlsOf p) (fetch_sitemap_urls net (docsOf p)) = .ok crawled ∧
      pages = dedupGo [] (manualEntriesOf p ++ crawled) := by
  unfold projectPages at h
  simp only [Bool.not_false, Bool.true_and, hc, if_true] at h
  cases hcl : crawlLoop net p.title (manualUrlsOf p) (fetch_sitemap_urls net (docsOf p)) with
  | error e0 => rw [hcl] at h; exact absurd h (by simp)
  | ok crawled =>
    rw [hcl] at h
    simp only [Except.ok.injEq] at h
    exact ⟨crawled, rfl, h.symm⟩

/-- Closed form of an offline run of the Site-Data Generator. -/
theorem generate_offline_eq (net : Net) :
    ∀ projs : List Project,
      generate net true projs =
        .ok (projs.map (fun p => searchEntryOf p (manualEntriesOf p)),
             projs.map cardOf) := by
  intro projs
  induction projs with
  | nil => rfl
  | cons p ps ih =>
    simp only [generate, projectPages_offline, ih, List.map_cons]

/-- The membership form of the per-project success status used by
`validate_sitemaps`. -/
def sitemapOk (fp : String → Option Xml) (p : Project) : Bool :=
  match get_project_sitemap_url p with
  | none => true
  | some u => (fp u).isSome

theorem validate_foldl_eq (fp : String → Option Xml) :
    ∀ (projects : List Project) (acc : Bool),
      projects.foldl
        (fun acc p =>
          match get_project_sitemap_url p with
          | none => acc
          | some u => if (fp u).isSome then acc else false) acc
      = (acc && projects.all (sitemapOk fp)) := by
  intro projects
  induction projects with
  | nil => intro acc; simp
  | cons p ps ih =>
    intro acc
    simp only [List.foldl_cons, List.all_cons, ih]
    cases hu : get_project_sitemap_url p with
    | none => simp [sitemapOk, hu]
    | some u =>
      cases hs : (fp u).isSome with
      | true => simp [sitemapOk, hu, hs]
      | false => simp [sitemapOk, hu, hs]

/-- `validate_sitemaps` succeeds exactly when every project's resolvable
sitemap URL fetches and parses. -/
theorem validate_sitemaps_eq_all (fp : String → Option Xml)
    (projects : List Project) :
    validate_sitemaps fp projects = projects.all (sitemapOk fp) := by
  have h := validate_foldl_eq fp projects true
  simpa [validate_sitemaps] using h

/-! ## Spec-side reference definitions for the Page Metadata Extractor

These two definitions follow the specification's words (not the code):
which meta tag's `content` the returned description should reflect. -/

/-- A start tag whose `name` attribute equals `"description"`
case-insensitively (the attribute read exactly as the code reads it). -/
def metaDescMatches (attrs : List (String × Option String)) : Bool :=
  match dictGetDefault attrs "name" with
  | none => false
  | some n => pyLower n = "description"

/-- Spec-side: the `content` value of the FIRST matching meta tag in
document order (`none` when no meta tag matches). -/
def firstMetaDescContent (evs : List HtmlEvent) : Option (Option String) :=
  (evs.find? (fun e =>
    match e with
    | .startTag t attrs => t = "meta" && metaDescMatches attrs
    | _ => false)).map (fun e =>
      match e with
      | .startTag _ attrs => dictGetDefault attrs "content"
      | _ => some "")

/-- Spec-side (amended): the `content` value of the LAST matching meta
tag in document order, starting from the accumulated value `acc`. -/
def lastMetaFrom (acc : Option String) : List HtmlEvent → Option String
  | [] => acc
  | .startTag t attrs :: es =>
    lastMetaFrom
      (if t = "meta" then
        (if metaDescMatches attrs then dictGetDefault attrs "content" else acc)
      else acc) es
  | .dataText _ :: es => lastMetaFrom acc es
  | .endTag _ :: es => lastMetaFrom acc es

/-- No event would make `handle_starttag` raise (a `meta` start tag whose
`name` attribute is present but value-less). -/
def noAbortEvents (evs : List HtmlEvent) : Bool :=
  evs.all (fun e =>
    match e with
    | .startTag t attrs => !(t = "meta") || (dictGetDefault attrs "name").isSome
    | _ => true)

theorem runEvents_description :
    ∀ (evs : List HtmlEvent) (st : MetaState), noAbortEvents evs = true →
      (runEvents st evs).description = lastMetaFrom st.description evs := by
  intro evs
  induction evs with
  | nil => intro st _; rfl
  | cons e es ih =>
    intro st hab
    rw [noAbortEvents, List.all_cons, Bool.and_eq_true] at hab
    obtain ⟨habe, habes⟩ := hab
    cases e with
    | startTag t attrs =>
      by_cases ht : t = "meta"
      · subst ht
        simp only [] at habe
        obtain ⟨n, hn⟩ := Option.isSome_iff_exists.mp (by simpa using habe)
        by_cases hdn : pyLower n = "description"
        · have hstep : stepEvent st (.startTag "meta" attrs) =
              .ok { st with description := dictGetDefault attrs "content" } := by
            simp [stepEvent, handleStarttag, hn, hdn]
          rw [runEvents, hstep, ih _ habes]
          simp [lastMetaFrom, metaDescMatches, hn, hdn]
        · have hstep : stepEvent st (.startTag "meta" attrs) = .ok st := by
            simp [stepEvent, handleStarttag, hn, hdn]
          rw [runEvents, hstep, ih _ habes]
          simp [lastMetaFrom, metaDescMatches, hn, hdn]
      · have hstep : stepEvent st (.startTag t attrs) =
            .ok (if t = "title" then { st with inTitle := true } else st) := by
          simp [stepEvent, handleStarttag, ht]
        rw [runEvents, hstep, ih _ habes]
        by_cases htt : t = "title" <;> simp [lastMetaFrom, ht, htt]
    | dataText s =>
      rw [runEvents]
      simp only [stepEvent]
      rw [ih _ habes]
      by_cases hin : st.inTitle <;> simp [lastMetaFrom, hin]
    | endTag t =>
      rw [runEvents]
      simp only [stepEvent]
      rw [ih _ habes]
      by_cases htt : t = "title" <;> simp [lastMetaFrom, htt]

/-! ## Candidate-failure predicates for Sitemap Discovery -/

/-- Candidate path `q` "fails" for `_fetch_sitemap_urls`: non-200 fetch,
whitespace-only body, XML parse failure, or a parsed document yielding
zero URLs. -/
def candFails (net : Net) (base q : String) : Prop :=
  (net.fetch (base ++ q)).1 ≠ 200 ∨ pyStrip (net.fetch (base ++ q)).2 = "" ∨
    ∀ root, net.parseXml (net.fetch (base ++ q)).2 = some root →
      collectRoot net root = []

theorem fetchSitemapGo_all_fail {net : Net} {base : String} :
    ∀ (paths : List String) (urls : List String),
      (∀ q ∈ paths, candFails net base q) →
      fetchSitemapGo net base urls paths = urls := by
  intro paths
  induction paths with
  | nil => intro urls _; rfl
  | cons q rest ih =>
    intro urls h
    have hq := h q (List.mem_cons_self _ _)
    have hrest : ∀ r ∈ rest, candFails net base r :=
      fun r hr => h r (List.mem_cons_of_mem _ hr)
    by_cases hcond : (net.fetch (base ++ q)).1 ≠ 200 ∨ pyStrip (net.fetch (base ++ q)).2 = ""
    · rw [fetchSitemapGo, if_pos (by simpa using hcond)]
      exact ih urls hrest
    · rw [fetchSitemapGo, if_neg (by simpa using hcond)]
      cases hpx : net.parseXml (net.fetch (base ++ q)).2 with
      | none => exact ih urls hrest
      | some root =>
        have hcoll : collectRoot net root = [] := by
          rcases hq with h1 | h2 | h3
          · exact absurd (Or.inl h1) hcond
          · exact absurd (Or.inr h2) hcond
          · exact h3 root hpx
        dsimp only
        rw [hcoll, List.append_nil]
        by_cases hu : urls = []
        · rw [if_pos hu]
          exact ih urls hrest
        · rw [if_neg hu]

/-! ## Concrete data for witnesses and counterexamples -/

/-- An environment in which every fetch fails, nothing parses, and every
body tokenizes to no events. -/
def netStub : Net :=
  { fetch := fun _ => (0, ""), parseXml := fun _ => none, tokenize := fun _ => [] }

/-- `netStub` with every field eta-expanded: pointwise equal oracles that
are not syntactically identical. -/
def netStub2 : Net :=
  { fetch := fun u => netStub.fetch u, parseXml := fun s => netStub.parseXml s,
    tokenize := fun s => netStub.tokenize s }

/-- A registry project whose two manual pages share a normalized URL
(they differ only by a trailing slash). -/
def projDup : Project :=
  { id := "demo", title := "Demo", repo := "demo",
    docs := some "https://demo.example.org/", sitemap := none,
    keywords := none, category := none, description := none,
    pages := some
      [{ title := "A", url := "https://demo.example.org/x", content := some "a" },
       { title := "B", url := "https://demo.example.org/x/", content := none }] }

/-- A manual page whose URL matches a build-artifact skip pattern and
whose title is empty. -/
def pgSkip : ManualPage :=
  { title := "", url := "https://s.example.org/_static/style.css", content := none }

/-- A project declaring only `pgSkip`. -/
def projSkip : Project :=
  { id := "s", title := "S", repo := "s",
    docs := some "https://s.example.org/", sitemap := none,
    keywords := none, category := none, description := none,
    pages := some [pgSkip] }

/-- A project whose `sitemap` key is present with the absent-marker. -/
def projMarker : Project :=
  { id := "m", title := "M", repo := "m",
    docs := some "https://m.example.org/docs/", sitemap := some none,
    keywords := none, category := none, description := none, pages := none }

/-- A project with no `sitemap` key (default resolution applies). -/
def projPlain : Project :=
  { id := "w", title := "W", repo := "w",
    docs := some "https://w.example.org/docs/", sitemap := none,
    keywords := none, category := none, description := none, pages := none }

/-- A sitemap-fetch oracle for which every fetch fails. -/
def fpNone : String → Option Xml := fun _ => none

/-- Two meta-description tags with different contents, as tokenized from
`<meta name="description" content="first"><meta name="description"
content="second">`. -/
def exMetaEvents : List HtmlEvent :=
  [.startTag "meta" [("name", some "description"), ("content", some "first")],
   .startTag "meta" [("name", some "description"), ("content", some "second")]]

/-! ## Claims -/

/-- C1 (counterexample): the claim asserts the dedup-by-normalized-URL
property "in every mode of the Site-Data Generator, including offline".
In offline mode the dedup pass of `generate` is skipped (it sits inside
the `not offline and _is_crawlable` branch, generate.py lines 239-279),
so a project whose manual `pages` contain two records differing only by
a trailing slash emits both: the final page list of its Search Index
Entry has two entries sharing a normalized URL. -/
theorem C1_dedup_offline_counterexample :
    (generate netStub true [projDup]).map (fun out => out.1.map SearchEntry.pages)
      = .ok [[{ title := "A", url := "https://demo.example.org/x", content := "a" },
              { title := "B", url := "https://demo.example.org/x/", content := "" }]]
    ∧ pyRstripSlash "https://demo.example.org/x"
        = pyRstripSlash "https://demo.example.org/x/"
    ∧ ¬ ([({ title := "A", url := "https://demo.example.org/x", content := "a" } : PageEntry),
          { title := "B", url := "https://demo.example.org/x/", content := "" }].Pairwise
            (fun a b => pyRstripSlash a.url ≠ pyRstripSlash b.url)) := by
  refine ⟨rfl, by decide, by decide⟩

/-- C1 (amended): when the Site-Data Generator runs online against a
crawlable docs host, the emitted page list is the dedup (by normalized
URL, first occurrence kept) of manual entries followed by crawled
entries, hence pairwise distinct under URL normalization, and any page
whose normalized URL is claimed by a manual record is a manual entry
(manual wins on a manual/crawled collision).  In offline mode or for a
non-crawlable docs host, the page list is exactly the manual entries,
with no dedup applied. -/
theorem C1_dedup_amended (net : Net) (p : Project) :
    (is_crawlable (docsOf p) = true →
      (∀ crawled,
        crawlLoop net p.title (manualUrlsOf p) (fetch_sitemap_urls net (docsOf p)) = .ok crawled →
        projectPages net false p = .ok (dedupGo [] (manualEntriesOf p ++ crawled)))
      ∧ (∀ pages, projectPages net false p = .ok pages →
          pages.Pairwise (fun a b => pyRstripSlash a.url ≠ pyRstripSlash b.url)
          ∧ ∀ e ∈ pages, pyRstripSlash e.url ∈ manualUrlsOf p → e ∈ manualEntriesOf p))
    ∧ (is_crawlable (docsOf p) = false →
        projectPages net false p = .ok (manualEntriesOf p))
    ∧ projectPages net true p = .ok (manualEntriesOf p) := by
  refine ⟨fun hc => ⟨?_, ?_⟩, projectPages_noncrawl net p, projectPages_offline net p⟩
  · intro crawled hcl
    unfold projectPages
    simp only [Bool.not_false, Bool.true_and, hc, if_true, hcl]
  · intro pages hp
    obtain ⟨crawled, hcl, rfl⟩ := projectPages_online hc hp
    refine ⟨dedupGo_pairwise _ _, ?_⟩
    intro e he hmem
    rcases List.mem_append.mp (dedupGo_subset _ _ _ he) with hm | hcr
    · exact hm
    · exact absurd hmem ((crawlLoop_mem hcl e hcr).1)

theorem C1_dedup_amended_witness :
    projectPages netStub false projDup =
      .ok [{ title := "A", url := "https://demo.example.org/x", content := "a" }] :=
  ((C1_dedup_amended netStub projDup).1 (by decide)).1 [] rfl

/-- C2 (counterexample): the claim says the returned description is the
`content` of the FIRST meta tag whose `name` equals "description"
case-insensitively and that later matching tags do not change the result.
`handle_starttag` (generate.py lines 50-53) re-assigns
`self.description` on every matching tag, so the LAST one wins: on a
document with two matching meta tags the extractor ends with the second
tag's content, not the first's. -/
theorem C2_first_meta_counterexample :
    (runEvents initMetaState exMetaEvents).description = some "second"
    ∧ firstMetaDescContent exMetaEvents = some (some "first")
    ∧ some ("second" : String) ≠ some "first" := by
  refine ⟨by decide, by decide, by decide⟩

/-- C2 (amended): for every tokenizer event stream that does not trigger
the value-less-`name` abort, the extractor's final description is the
`content` attribute value of the LAST meta tag in document order whose
`name` attribute equals "description" case-insensitively (the initial
empty string when none matches). -/
theorem C2_last_meta_amended (evs : List HtmlEvent)
    (h : noAbortEvents evs = true) :
    (runEvents initMetaState evs).description = lastMetaFrom (some "") evs :=
  runEvents_description evs initMetaState h

theorem C2_last_meta_amended_witness :
    (runEvents initMetaState exMetaEvents).description
      = lastMetaFrom (some "") exMetaEvents :=
  C2_last_meta_amended exMetaEvents (by decide)

/-- C3: Sitemap Discovery error handling, over any fetch/parse oracles:
(a) a candidate whose fetch fails, whose body is whitespace-only, or
whose body fails to parse is skipped exactly like a failed fetch — the
loop result equals the result on the remaining candidates;
(b) once a successfully parsed candidate makes the cumulative URL list
non-empty, the loop stops and returns it, whatever candidates remain;
(c) over any candidate list in which every candidate fails or yields
zero URLs, the loop returns its accumulator unchanged, so
(d) `_fetch_sitemap_urls` returns `[]` when all seven candidate paths
fail — and, being a total function, it never raises. -/
theorem C3_sitemap_discovery (net : Net) :
    (∀ (base p : String) (rest : List String) (urls : List String),
      ((net.fetch (base ++ p)).1 ≠ 200 ∨ pyStrip (net.fetch (base ++ p)).2 = "" ∨
        net.parseXml (net.fetch (base ++ p)).2 = none) →
      fetchSitemapGo net base urls (p :: rest) = fetchSitemapGo net base urls rest)
    ∧ (∀ (base p : String) (rest : List String) (urls : List String) (root : Xml),
        (net.fetch (base ++ p)).1 = 200 →
        pyStrip (net.fetch (base ++ p)).2 ≠ "" →
        net.parseXml (net.fetch (base ++ p)).2 = some root →
        urls ++ collectRoot net root ≠ [] →
        fetchSitemapGo net base urls (p :: rest) = urls ++ collectRoot net root)
    ∧ (∀ (base : String) (paths : List String) (urls : List String),
        (∀ q ∈ paths, candFails net base q) →
        fetchSitemapGo net base urls paths = urls)
    ∧ (∀ docs_url : String,
        (∀ q ∈ sitemap_paths, candFails net (pyRstripSlash docs_url) q) →
        fetch_sitemap_urls net docs_url = []) := by
  refine ⟨?_, ?_, ?_, ?_⟩
  · intro base p rest urls h
    by_cases hcond : (net.fetch (base ++ p)).1 ≠ 200 ∨ pyStrip (net.fetch (base ++ p)).2 = ""
    · rw [fetchSitemapGo, if_pos (by simpa using hcond)]
    · have hpx : net.parseXml (net.fetch (base ++ p)).2 = none := by
        rcases h with h1 | h2 | h3
        · exact absurd (Or.inl h1) hcond
        · exact absurd (Or.inr h2) hcond
        · exact h3
      rw [fetchSitemapGo, if_neg (by simpa using hcond), hpx]
  · intro base p rest urls root hst hbody hpx hne
    have hcond : ¬((net.fetch (base ++ p)).1 ≠ 200 ∨ pyStrip (net.fetch (base ++ p)).2 = "") := by
      push_neg
      exact ⟨by simpa using hst, hbody⟩
    rw [fetchSitemapGo, if_neg (by simpa using hcond), hpx]
    dsimp only
    rw [if_neg hne]
  · intro base paths urls h
    exact fetchSitemapGo_all_fail paths urls h
  · intro docs_url h
    exact fetchSitemapGo_all_fail sitemap_paths [] h

theorem C3_sitemap_discovery_witness :
    fetch_sitemap_urls netStub "https://docs.example.org/" = [] :=
  (C3_sitemap_discovery netStub).2.2.2 "https://docs.example.org/"
    (fun q _ => Or.inl (by simp [netStub]))

/-- C4: titles containing `" — "` are split at the first occurrence; the
suffix is cleaned by the version-token substitution and the trailing
documentation/docs strip; the cleaned suffix is re-joined with `" - "`
exactly when non-empty and case-insensitively different from the page
part.  In particular `"API Reference — Torchy 2.1 documentation"`
cleans to `"API Reference - Torchy"`. -/
theorem C4_title_cleanup :
    (∀ (t : String) (p s : List Char), splitFirstSep titleSep t.data = some (p, s) →
      cleanupTitle t =
        (if stripWs (stripDocsSuffix (pySubVersion (stripWs s))) ≠ []
            ∧ lowerL (stripWs (stripDocsSuffix (pySubVersion (stripWs s))))
                ≠ lowerL (stripWs p)
         then ⟨stripWs p ++ " - ".data ++ stripWs (stripDocsSuffix (pySubVersion (stripWs s)))⟩
         else ⟨stripWs p⟩))
    ∧ cleanupTitle "API Reference — Torchy 2.1 documentation" = "API Reference - Torchy" := by
  constructor
  · intro t p s h
    unfold cleanupTitle
    rw [h]
  · decide

theorem C4_title_cleanup_witness :
    cleanupTitle "Intro — Lib" = "Intro - Lib" := by
  have h := C4_title_cleanup.1 "Intro — Lib" "Intro".data "Lib".data (by decide)
  rw [h]
  decide

/-- C5: `get_project_sitemap_url` returns the `sitemap` value verbatim
whenever the key is present — in particular the absent-marker resolves
to "no sitemap" and is not replaced by a default — and only a missing
key falls back to `{docs}/sitemap.xml` with the docs URL's trailing
slashes stripped. -/
theorem C5_sitemap_url_resolution (p : Project) :
    (∀ v, p.sitemap = some v → get_project_sitemap_url p = v)
    ∧ (p.sitemap = some none → get_project_sitemap_url p = none)
    ∧ (p.sitemap = none →
        get_project_sitemap_url p =
          some (pyRstripSlash (p.docs.getD "") ++ "/sitemap.xml")) := by
  refine ⟨?_, ?_, ?_⟩
  · intro v hv; simp [get_project_sitemap_url, hv]
  · intro hv; simp [get_project_sitemap_url, hv]
  · intro hv; simp [get_project_sitemap_url, hv]

theorem C5_sitemap_url_resolution_witness :
    get_project_sitemap_url projMarker = none
    ∧ get_project_sitemap_url projPlain
        = some "https://w.example.org/docs/sitemap.xml" := by
  constructor
  · exact (C5_sitemap_url_resolution projMarker).2.1 rfl
  · have h := (C5_sitemap_url_resolution projPlain).2.2 rfl
    rw [h]
    decide

/-- C6: under `--validate` no sitemap file is written, the exit code is
0 exactly when every project whose resolved sitemap URL is non-absent
fetches and parses (absent-sitemap projects are skipped), and one
project whose fetch-and-parse fails forces exit code 1. -/
theorem C6_validate_mode (fp : String → Option Xml) (unifiedFlag : Bool)
    (projs : List Project) (today : String) :
    (mainRun fp true unifiedFlag projs today).2 = []
    ∧ ((mainRun fp true unifiedFlag projs today).1 = 0 ↔
        ∀ p ∈ projs, ∀ u, get_project_sitemap_url p = some u → (fp u).isSome = true)
    ∧ (∀ p ∈ projs, ∀ u, get_project_sitemap_url p = some u → fp u = none →
        (mainRun fp true unifiedFlag projs today).1 = 1) := by
  have hall : validate_sitemaps fp projs = true ↔
      ∀ p ∈ projs, ∀ u, get_project_sitemap_url p = some u → (fp u).isSome = true := by
    rw [validate_sitemaps_eq_all, List.all_eq_true]
    constructor
    · intro h p hp u hu
      have hok := h p hp
      simp only [sitemapOk, hu] at hok
      exact hok
    · intro h p hp
      cases hu : get_project_sitemap_url p with
      | none => simp [sitemapOk, hu]
      | some u =>
        simp only [sitemapOk, hu]
        exact h p hp u hu
  have hmain : mainRun fp true unifiedFlag projs today
      = (if validate_sitemaps fp projs then 0 else 1, []) := rfl
  refine ⟨by rw [hmain], ?_, ?_⟩
  · rw [hmain]
    cases hv : validate_sitemaps fp projs with
    | true =>
      exact ⟨fun _ => hall.mp hv, fun _ => rfl⟩
    | false =>
      constructor
      · intro h10
        exact absurd h10 (by decide)
      · intro hforall
        exact absurd (hall.mpr hforall) (by simp [hv])
  · intro p hp u hu hnone
    have hv : validate_sitemaps fp projs = false := by
      cases hvv : validate_sitemaps fp projs with
      | false => rfl
      | true =>
        have hok := hall.mp hvv p hp u hu
        rw [hnone] at hok
        simp at hok
    rw [hmain, hv]
    rfl

theorem C6_validate_mode_witness :
    (mainRun fpNone true false [projPlain] "2026-10-12").1 = 1 :=
  (C6_validate_mode fpNone false [projPlain] "2026-10-12").2.2 projPlain
    (by decide) "https://w.example.org/docs/sitemap.xml" (by decide) rfl

/-- C7: a project whose `sitemap` key holds the absent-marker contributes
no entry to the sitemap index, and contributes to the unified sitemap
exactly one `url` entry whose `loc` is the docs root with a trailing
slash and whose `priority` is `0.8`; both documents are the main entry
followed by the per-project contributions in registry order. -/
theorem C7_absent_marker_entries (fp : String → Option Xml) (today : String)
    (p : Project) (hmark : p.sitemap = some none) :
    indexContrib today p = []
    ∧ unifiedContrib fp today p = [docsRootEntry today p]
    ∧ docsRootEntry today p =
        Xml.elem "url" none
          [.elem "loc" (some (pyRstripSlash (p.docs.getD "") ++ "/")) [],
           .elem "lastmod" (some today) [],
           .elem "priority" (some "0.8") []]
    ∧ (∀ (im : Bool) (projs : List Project),
        generate_sitemap_index today im projs =
          (if im then
            [Xml.elem "sitemap" none
              (locLastmod (BASE_URL ++ "/" ++ MAIN_SITEMAP_PATH) today)]
          else []) ++ projs.flatMap (indexContrib today))
    ∧ (∀ projs : List Project,
        generate_unified_sitemap fp today projs =
          unifiedMainEntry today :: projs.flatMap (unifiedContrib fp today)) := by
  have hurl : get_project_sitemap_url p = none := by
    simp [get_project_sitemap_url, hmark]
  refine ⟨?_, ?_, rfl, fun im projs => rfl, fun projs => rfl⟩
  · simp [indexContrib, hurl]
  · simp [unifiedContrib, hurl]

theorem C7_absent_marker_entries_witness :
    indexContrib "2026-10-12" projMarker = []
    ∧ unifiedContrib fpNone "2026-10-12" projMarker
        = [docsRootEntry "2026-10-12" projMarker] :=
  ⟨(C7_absent_marker_entries fpNone "2026-10-12" projMarker rfl).1,
   (C7_absent_marker_entries fpNone "2026-10-12" projMarker rfl).2.1⟩

/-- C8: an offline run of the Site-Data Generator emits, for every
registry project, a page list equal to the manually declared `pages`
records in declaration order (content defaulting to the empty string
when absent), and the result does not depend on the network oracles at
all — the same output arises under any two environments, so no fetch can
influence (or be required for) the run. -/
theorem C8_offline_manual_pages (net net2 : Net) (projs : List Project) :
    generate net true projs =
      .ok (projs.map (fun p => searchEntryOf p (manualEntriesOf p)),
           projs.map cardOf)
    ∧ generate net true projs = generate net2 true projs := by
  refine ⟨generate_offline_eq net projs, ?_⟩
  rw [generate_offline_eq net projs, generate_offline_eq net2 projs]

/-- C9: the Site-Data Generator is deterministic — two runs over the
same registry and the same remote responses (two oracle environments
that agree pointwise) produce equal results, and hence byte-identical
search-index and project-catalog JSON under the fixed `json.dump`
rendering. -/
theorem C9_deterministic_output (f g : Net) (off : Bool) (projs : List Project)
    (hf : ∀ u, f.fetch u = g.fetch u)
    (hp : ∀ s, f.parseXml s = g.parseXml s)
    (ht : ∀ s, f.tokenize s = g.tokenize s) :
    generate f off projs = generate g off projs
    ∧ ∀ si cards si2 cards2,
        generate f off projs = .ok (si, cards) →
        generate g off projs = .ok (si2, cards2) →
        serializeSearchIndex si = serializeSearchIndex si2
        ∧ serializeCards cards = serializeCards cards2 := by
  have hfg : f = g := by
    cases f; cases g
    simp only [Net.mk.injEq]
    exact ⟨funext hf, funext hp, funext ht⟩
  subst hfg
  refine ⟨rfl, ?_⟩
  intro si cards si2 cards2 h1 h2
  rw [h1] at h2
  simp only [Except.ok.injEq, Prod.mk.injEq] at h2
  rw [h2.1, h2.2]
  exact ⟨rfl, rfl⟩

theorem C9_deterministic_output_witness :
    generate netStub false [projDup] = generate netStub2 false [projDup] :=
  (C9_deterministic_output netStub netStub2 false [projDup]
    (fun _ => rfl) (fun _ => rfl) (fun _ => rfl)).1

/-- C10: manual page entries bypass all crawl-time filtering: whatever
the mode and the network environment, every manually declared page —
its normalized URL assumed not shadowed by another manual record — is
emitted verbatim in the project's page list, with no constraint on its
URL (build-artifact skip patterns included) or title (empty included);
the skip-pattern and non-empty-title checks constrain only the
crawl-discovered entries. -/
theorem C10_manual_bypasses_filters (net : Net) (off : Bool) (p : Project)
    (pg : ManualPage) (hpg : pg ∈ p.pages.getD [])
    (hnodup : (manualUrlsOf p).Nodup) :
    (∀ pages, projectPages net off p = .ok pages → manualEntry pg ∈ pages)
    ∧ (∀ crawled,
        crawlLoop net p.title (manualUrlsOf p) (fetch_sitemap_urls net (docsOf p)) = .ok crawled →
        ∀ e ∈ crawled, should_skip_url e.url = false ∧ e.title ≠ "") := by
  constructor
  · intro pages hp
    have hmem : manualEntry pg ∈ manualEntriesOf p :=
      List.mem_map_of_mem manualEntry hpg
    cases off with
    | true =>
      rw [projectPages_offline] at hp
      simp only [Except.ok.injEq] at hp
      rw [← hp]
      exact hmem
    | false =>
      by_cases hc : is_crawlable (docsOf p) = true
      · obtain ⟨crawled, hcl, rfl⟩ := projectPages_online hc hp
        apply dedupGo_keep
        · exact List.mem_append_left _ hmem
        · simp
        · intro y hy hnorm
          rcases List.mem_append.mp hy with hm | hcr
          · obtain ⟨pg2, hpg2, rfl⟩ := List.mem_map.mp hm
            have hinj := List.inj_on_of_nodup_map hnodup
            have : pg2 = pg := hinj hpg2 hpg hnorm
            rw [this]
          · have hnin := (crawlLoop_mem hcl y hcr).1
            have hin : pyRstripSlash (manualEntry pg).url ∈ manualUrlsOf p :=
              List.mem_map_of_mem _ hpg
            rw [hnorm] at hnin
            exact absurd hin hnin
      · rw [projectPages_noncrawl net p (by simpa using hc)] at hp
        simp only [Except.ok.injEq] at hp
        rw [← hp]
        exact hmem
  · intro crawled hcl e he
    exact ⟨(crawlLoop_mem hcl e he).2.1, (crawlLoop_mem hcl e he).2.2⟩

theorem C10_manual_bypasses_filters_witness :
    should_skip_url "https://s.example.org/_static/style.css" = true
    ∧ pgSkip.title = ""
    ∧ manualEntry pgSkip ∈ [manualEntry pgSkip] :=
  ⟨by decide, rfl,
   (C10_manual_bypasses_filters netStub true projSkip pgSkip (by decide)
      (by decide)).1 [manualEntry pgSkip] rfl⟩
